import Mathlib

/-!
# Verification of the BIND statistics exporter (digitalocean/bind_exporter)

Shallow embedding of `bind_exporter.go` (the current exporter) and of the
legacy single-file exporter (`src/unnamed/part_000`).  Pure functions of the
Go source are translated to Lean functions; the network and the XML
unmarshaller are passed in as explicit oracles; Go runtime panics are
modelled as `Option.none` at the outermost layer; machine counters are `Nat`
and Prometheus float64 values are `ℚ`.
-/

namespace BindExporter

/-! ## String helpers

Go's `strings.HasPrefix` / `strings.HasSuffix` / `strings.TrimPrefix` are
modelled on the character list of a `String` so that everything reduces in
the kernel. -/

/-- Model of Go `strings.HasPrefix s p`. -/
def strHasPrefix (s p : String) : Bool := p.data.isPrefixOf s.data

/-- Model of Go `strings.HasSuffix s p`. -/
def strHasSuffix (s p : String) : Bool := p.data.isSuffixOf s.data

/-- Drop the first `n` characters of a string (used to model
`strings.TrimPrefix` under a `HasPrefix` guard). -/
def strDrop (s : String) (n : Nat) : String := ⟨s.data.drop n⟩

/-- Model of Go `strings.TrimPrefix s p`. -/
def strTrim (s p : String) : String :=
  if strHasPrefix s p then strDrop s p.length else s

/-- Constant `namespace` of the source (`namespace` is a Lean keyword, hence
the different name). -/
def namespaceStr : String := "bind"

/-- Constant `resolver` of the source. -/
def resolverStr : String := "resolver"

/-- Constant `qryRTT` of the source. -/
def qryRTT : String := "QryRTT"

/-- Model of `prometheus.BuildFQName`: joins the non-empty parts of
(namespace, subsystem, name) with `"_"`. -/
def buildFQName (ns sub name : String) : String :=
  if name = "" then ""
  else if ns ≠ "" ∧ sub ≠ "" then ns ++ "_" ++ sub ++ "_" ++ name
  else if ns ≠ "" then ns ++ "_" ++ name
  else if sub ≠ "" then sub ++ "_" ++ name
  else name

/-! ## Histogram bucket bounds

The Go code stores bucket upper bounds as `float64`: either
`ParseFloat(remainder)/1000` or `math.Inf(0)`.  All bounds that actually
arise are exact decimal values, so they are modelled as rationals plus a
distinguished `inf`. -/

/-- A histogram bucket upper bound: a finite rational number of seconds, or
`+Inf` (Go `math.Inf(0)`). -/
inductive Bound where
  | fin (q : ℚ)
  | inf
deriving DecidableEq, Repr

/-- The `float64` order on bounds (`+Inf` is the maximum; `NaN` never
arises because bounds come from successful parses). -/
def Bound.le : Bound → Bound → Prop
  | .fin a, .fin b => a ≤ b
  | .fin _, .inf => True
  | .inf, .fin _ => False
  | .inf, .inf => True

instance : DecidableRel Bound.le := fun a b =>
  match a, b with
  | .fin a, .fin b => inferInstanceAs (Decidable (a ≤ b))
  | .fin _, .inf => .isTrue trivial
  | .inf, .fin _ => .isFalse (fun h => h)
  | .inf, .inf => .isTrue trivial

instance : IsTotal Bound Bound.le where
  total a b :=
    match a, b with
    | .fin x, .fin y => le_total x y
    | .fin _, .inf => Or.inl trivial
    | .inf, .fin _ => Or.inr trivial
    | .inf, .inf => Or.inl trivial

instance : IsTrans Bound Bound.le where
  trans a b c :=
    match a, b, c with
    | .fin _, .fin _, .fin _ => fun h1 h2 => le_trans h1 h2
    | .fin _, .fin _, .inf => fun _ _ => trivial
    | .fin _, .inf, .fin _ => fun _ h2 => h2.elim
    | .fin _, .inf, .inf => fun _ _ => trivial
    | .inf, .fin _, .fin _ => fun h1 _ => h1.elim
    | .inf, .fin _, .inf => fun _ _ => trivial
    | .inf, .inf, .fin _ => fun _ h2 => h2.elim
    | .inf, .inf, .inf => fun _ _ => trivial

instance : IsAntisymm Bound Bound.le where
  antisymm a b :=
    match a, b with
    | .fin x, .fin y => fun h1 h2 => by rw [le_antisymm h1 h2]
    | .fin _, .inf => fun _ h2 => h2.elim
    | .inf, .fin _ => fun h1 _ => h1.elim
    | .inf, .inf => fun _ _ => rfl

/-- Strict version of `Bound.le`. -/
def Bound.lt (a b : Bound) : Prop := Bound.le a b ∧ a ≠ b

instance : DecidableRel Bound.lt := fun a b => by
  unfold Bound.lt; infer_instance

/-! ## Numeric parsing

`strconv.ParseFloat(rrt, 32)` is applied by the source to the remainder of a
counter name after the `QryRTT` tag.  In the BIND statistics vocabulary this
remainder is a plain string of decimal digits (`10`, `100`, `500`, `800`,
`1600`); the model parses exactly those (a non-empty all-digit string),
failing on anything else, which is also how the spec describes the
histogram-parse failure mode. -/

/-- Value of a digit list, most significant first. -/
def digitsVal (l : List Char) : Nat :=
  l.foldl (fun n c => 10 * n + (c.toNat - '0'.toNat)) 0

/-- Parse a non-empty all-digit string; `none` models a
`strconv.ParseFloat` error. -/
def parseNatDigits (l : List Char) : Option Nat :=
  if l ≠ [] ∧ l.all Char.isDigit then some (digitsVal l) else none

/-- The bucket bound encoded by an RTT counter name (the caller guarantees
the `QryRTT` tag): `+Inf` for a trailing `"+"`, otherwise the millisecond
remainder parsed and divided by 1000, as in the source
(`b, err = strconv.ParseFloat(rrt, 32)` … `buckets[b/1000]`).  The error
carries the unparsable remainder, as in `fmt.Errorf("could not parse RTT:
%s", rrt)`. -/
def rttBound (name : String) : Except String Bound :=
  if strHasSuffix name "+" then .ok .inf
  else
    match parseNatDigits (name.data.drop qryRTT.length) with
    | some n => .ok (.fin (Rat.divInt n 1000))
    | none => .error ("could not parse RTT: " ++ ⟨name.data.drop qryRTT.length⟩)

/-! ## Bucket maps

Go's `map[float64]uint64` is represented as an association list with
distinct keys; `upsertB` is map assignment (`buckets[b] = v`) and `lookupB`
is map indexing (`buckets[b]`, total because Go returns the zero value for a
missing key). -/

/-- Map assignment `buckets[b] = v`: replace the binding for `b` in place,
or append a new one. -/
def upsertB (b : Bound) (v : Nat) : List (Bound × Nat) → List (Bound × Nat)
  | [] => [(b, v)]
  | (b', v') :: rest =>
    if b' = b then (b, v) :: rest else (b', v') :: upsertB b v rest

/-- Map indexing `buckets[b]` (0, the Go zero value, for a missing key). -/
def lookupB (m : List (Bound × Nat)) (b : Bound) : Nat :=
  ((m.find? (fun p => p.1 = b)).map Prod.snd).getD 0

instance {ε α : Type} [DecidableEq ε] [DecidableEq α] :
    DecidableEq (Except ε α) := fun
  | .error e, .error e' =>
    if h : e = e' then .isTrue (by rw [h]) else .isFalse (by simp [h])
  | .error _, .ok _ => .isFalse (by simp)
  | .ok _, .error _ => .isFalse (by simp)
  | .ok a, .ok a' =>
    if h : a = a' then .isTrue (by rw [h]) else .isFalse (by simp [h])

/-! ## Counter records

The element shapes of `BindRootV2`/`BindRootV3` are fixed by their uses in
`bind_exporter.go` (`s.Name`, `s.Counter`, …). -/

/-- A Gen2 `<counter name=.. >value</counter>` statistic (`StatV2`). -/
structure StatV2 where
  name : String
  counter : Nat
deriving DecidableEq, Repr

/-- A Gen3 name/value counter (`CounterV3`). -/
structure CounterV3 where
  name : String
  counter : Nat
deriving DecidableEq, Repr

/-! ## Histogram builders -/

/-- Loop body of Go `histogramV2`: walks the stats in input order keeping
the running `count`, writing `buckets[b/1000] = count + s.Counter` for each
RTT-tagged counter.  Go returns `(buckets, 0, err)` on a parse error and the
callers use the buckets only when `err == nil`; the model returns
`Except`. -/
def histogramV2Aux : List StatV2 → List (Bound × Nat) → Nat →
    Except String (List (Bound × Nat) × Nat)
  | [], buckets, count => .ok (buckets, count)
  | s :: rest, buckets, count =>
    if strHasPrefix s.name qryRTT then
      match rttBound s.name with
      | .error e => .error e
      | .ok b =>
        histogramV2Aux rest (upsertB b (count + s.counter) buckets)
          (count + s.counter)
    else histogramV2Aux rest buckets count

/-- Go `histogramV2`: cumulative histogram accumulated in input order,
without sorting by bound. -/
def histogramV2 (stats : List StatV2) :
    Except String (List (Bound × Nat) × Nat) :=
  histogramV2Aux stats [] 0

/-- First pass of Go `histogramV3`: `buckets[b/1000] = uint64(s.Counter)`
for every RTT-tagged counter, aborting on the first parse error. -/
def histogramV3Pass1 : List CounterV3 → List (Bound × Nat) →
    Except String (List (Bound × Nat))
  | [], buckets => .ok buckets
  | s :: rest, buckets =>
    if strHasPrefix s.name qryRTT then
      match rttBound s.name with
      | .error e => .error e
      | .ok b => histogramV3Pass1 rest (upsertB b s.counter buckets)
    else histogramV3Pass1 rest buckets

/-- Running cumulative sums: `runningPairs c [(b₁,v₁),…]` replaces each
value by the cumulative sum so far (starting from `c`) and also returns the
final sum.  This is the shared accumulation loop of both histogram
builders. -/
def runningPairs (c : Nat) : List (Bound × Nat) → List (Bound × Nat) × Nat
  | [] => ([], c)
  | (b, v) :: rest =>
    let r := runningPairs (c + v) rest
    ((b, c + v) :: r.1, r.2)

/-- Second phase of Go `histogramV3`: collect the keys of the bucket map,
sort them ascending (`sort.Float64s`), then walk them accumulating
`count += buckets[k]; buckets[k] = count`.  The resulting map is returned
as an association list in ascending key order. -/
def sortCumul (m : List (Bound × Nat)) : List (Bound × Nat) × Nat :=
  runningPairs 0
    (((m.map Prod.fst).insertionSort Bound.le).map (fun k => (k, lookupB m k)))

/-- Go `histogramV3`: bucket map built first, then sorted by bound and
accumulated — independent of input order (for distinct bounds). -/
def histogramV3 (counters : List CounterV3) :
    Except String (List (Bound × Nat) × Nat) :=
  match histogramV3Pass1 counters [] with
  | .error e => .error e
  | .ok m => .ok (sortCumul m)

/-! ## Snapshot trees

`BindRootV2` / `BindRootV3` are declared in a repository file that is not
part of `src/`; their shapes below are exactly the field paths used by
`bind_exporter.go` (`root.Bind.Statistics.Server.QueriesIn.Rdtype`, …).
Counters are `Nat` (machine `uint`/`int` values that the source casts with
`float64(...)`/`uint64(...)`; all are non-negative). -/

/-- The `Taskmgr.ThreadModel` (`TasksRunning`, `WorkerThreads`). -/
structure ThreadModel where
  tasksRunning : Nat
  workerThreads : Nat
deriving DecidableEq, Repr

/-- The task-manager node. -/
structure Taskmgr where
  threadModel : ThreadModel
deriving DecidableEq, Repr

/-- Node `Server.QueriesIn` of the Gen2 tree. -/
structure QueriesIn where
  rdtype : List StatV2
deriving DecidableEq, Repr

/-- Node `Server.Requests` of the Gen2 tree. -/
structure Requests where
  opcode : List StatV2
deriving DecidableEq, Repr

/-- Node `Server` of the Gen2 tree. -/
structure ServerV2 where
  queriesIn : QueriesIn
  requests : Requests
  nsStats : List StatV2
deriving DecidableEq, Repr

/-- A Gen2 view. -/
structure ViewV2 where
  name : String
  cache : List StatV2
  rdtype : List StatV2
  resstat : List StatV2
deriving DecidableEq, Repr

/-- Node `Statistics` of the Gen2 tree. -/
structure StatisticsV2 where
  server : ServerV2
  views : List ViewV2
  taskmgr : Taskmgr
deriving DecidableEq, Repr

/-- Node `Bind` of the Gen2 tree. -/
structure BindV2 where
  statistics : StatisticsV2
deriving DecidableEq, Repr

/-- The Gen2 root (`BindRootV2`). -/
structure BindRootV2 where
  bind : BindV2
deriving DecidableEq, Repr

/-- A Gen3 typed counter group (`Type`, `Counter`). -/
structure CounterGroupV3 where
  type : String
  counter : List CounterV3
deriving DecidableEq, Repr

/-- Node `Server` of the Gen3 tree. -/
structure ServerV3 where
  counters : List CounterGroupV3
deriving DecidableEq, Repr

/-- A Gen3 view. -/
structure ViewV3 where
  name : String
  cache : List CounterV3
  counters : List CounterGroupV3
deriving DecidableEq, Repr

/-- The Gen3 root (`BindRootV3`). -/
structure BindRootV3 where
  server : ServerV3
  views : List ViewV3
  taskmgr : Taskmgr
deriving DecidableEq, Repr

/-- The Go zero value `BindRootV2{}`. -/
def emptyV2 : BindRootV2 := ⟨⟨⟨⟨[]⟩, ⟨[]⟩, []⟩, [], ⟨⟨0, 0⟩⟩⟩⟩

/-- The Go zero value `BindRootV3{}` (the accumulator of `FetchV3`). -/
def emptyV3 : BindRootV3 := ⟨⟨[]⟩, [], ⟨⟨0, 0⟩⟩⟩

/-! ## Metric descriptors

A `prometheus.Desc` is identified here by its fully qualified metric name;
the label keys live in the descriptor and are fixed by the source, so an
emitted metric is (descriptor name, kind, value, label values). -/

/-- Descriptor `up`. -/
def up : String := buildFQName namespaceStr "" "up"

/-- Descriptor `incomingQueries`. -/
def incomingQueries : String :=
  buildFQName namespaceStr "" "incoming_queries_total"

/-- Descriptor `incomingRequests`. -/
def incomingRequests : String :=
  buildFQName namespaceStr "" "incoming_requests_total"

/-- Descriptor `resolverCache`. -/
def resolverCache : String := buildFQName namespaceStr resolverStr "cache_rrsets"

/-- Descriptor `resolverQueries`. -/
def resolverQueries : String :=
  buildFQName namespaceStr resolverStr "queries_total"

/-- Descriptor `resolverQueryDuration`. -/
def resolverQueryDuration : String :=
  buildFQName namespaceStr resolverStr "query_duration_seconds"

/-- Descriptor `resolverQueryErrors`. -/
def resolverQueryErrors : String :=
  buildFQName namespaceStr resolverStr "query_errors_total"

/-- Descriptor `resolverResponseErrors`. -/
def resolverResponseErrors : String :=
  buildFQName namespaceStr resolverStr "response_errors_total"

/-- Descriptor `resolverDNSSECSucess` (name as in the source). -/
def resolverDNSSECSucess : String :=
  buildFQName namespaceStr resolverStr "dnssec_validation_success_total"

/-- The map `resolverMetricStats`: per-view resolver counters with a
dedicated descriptor each (labelled only by view). -/
def resolverMetricStats (n : String) : Option String :=
  List.lookup n
    [("Lame", buildFQName namespaceStr resolverStr "response_lame_total"),
     ("EDNS0Fail", buildFQName namespaceStr resolverStr "query_edns0_errors_total"),
     ("Mismatch", buildFQName namespaceStr resolverStr "response_mismatch_total"),
     ("Retry", buildFQName namespaceStr resolverStr "query_retries_total"),
     ("Truncated", buildFQName namespaceStr resolverStr "response_truncated_total"),
     ("ValFail", buildFQName namespaceStr resolverStr "dnssec_validation_errors_total")]

/-- The map `resolverLabelStats`: per-view resolver counters mapped to
shared label-discriminated descriptors. -/
def resolverLabelStats (n : String) : Option String :=
  List.lookup n
    [("QueryAbort", resolverQueryErrors),
     ("QuerySockFail", resolverQueryErrors),
     ("QueryTimeout", resolverQueryErrors),
     ("NXDOMAIN", resolverResponseErrors),
     ("SERVFAIL", resolverResponseErrors),
     ("FORMERR", resolverResponseErrors),
     ("OtherError", resolverResponseErrors),
     ("ValOk", resolverDNSSECSucess),
     ("ValNegOk", resolverDNSSECSucess)]

/-- Descriptor `serverQueryErrors`. -/
def serverQueryErrors : String := buildFQName namespaceStr "" "query_errors_total"

/-- Descriptor `serverReponses` (name as in the source). -/
def serverReponses : String := buildFQName namespaceStr "" "responses_total"

/-- The map `serverLabelStats`: name-server operational counters mapped to
`serverQueryErrors` or `serverReponses`. -/
def serverLabelStats (n : String) : Option String :=
  List.lookup n
    [("QryDuplicate", serverQueryErrors),
     ("QryDropped", serverQueryErrors),
     ("QryFailure", serverQueryErrors),
     ("QrySuccess", serverReponses),
     ("QryReferral", serverReponses),
     ("QryNxrrset", serverReponses),
     ("QrySERVFAIL", serverReponses),
     ("QryFORMERR", serverReponses),
     ("QryNXDOMAIN", serverReponses)]

/-- Descriptor `tasksRunning`. -/
def tasksRunning : String := buildFQName namespaceStr "" "tasks_running"

/-- Descriptor `workerThreads`. -/
def workerThreads : String := buildFQName namespaceStr "" "worker_threads"

/-- An emitted Prometheus metric.  Every plain value the source emits is
`float64` of a non-negative machine integer (or the literal 0/1 of `up`),
so values are `Nat`. -/
inductive Metric where
  | gauge (desc : String) (value : Nat) (labels : List String)
  | counter (desc : String) (value : Nat) (labels : List String)
  | histo (desc : String) (count : Nat) (buckets : List (Bound × Nat))
      (labels : List String)
deriving DecidableEq, Repr

/-- The `up` gauge sent by `Collect`'s deferred function. -/
def upMetric (status : Nat) : Metric := .gauge up status []

/-! ## The exporter and its effect oracles

Network traffic and XML decoding are external effects; they enter the model
as oracle functions.  `Eff α` is the outcome of an effectful method: `val =
none` models a Go runtime panic, `.error` a returned Go `error`, and `reqs`
is the ordered list of URIs requested (one entry per `client.Get`). -/

/-- An HTTP response: status code, status line (`resp.Status`), and the
outcome of reading the body (`ioutil.ReadAll`). -/
structure HTTPResp where
  status : Nat
  statusLine : String
  body : Except String String

/-- The network oracle: what one `client.Get(uri)` produces. -/
abbrev Net := String → Except String HTTPResp

/-- Oracle for `xml.Unmarshal(data, &BindRootV2{})`. -/
abbrev UnmV2 := String → Except String BindRootV2

/-- Oracle for `xml.Unmarshal(body, &root)` into the shared Gen3
accumulator: given the bytes and the accumulator so far, produce the
updated accumulator or an error. -/
abbrev UnmV3 := String → BindRootV3 → Except String BindRootV3

/-- Outcome of an effectful exporter method. -/
structure Eff (α : Type) where
  val : Option (Except String α)
  reqs : List String
deriving Repr

/-- The `Exporter` struct (the `client` field is replaced by the `Net`
oracle passed to each method). -/
structure Exporter where
  URI : String
  metrics : List String
  version : String
deriving DecidableEq, Repr

/-- Constructor `NewExporter`: the composite literal sets `URI` and `metrics` and omits
`version`, which therefore takes Go's zero value `""`. -/
def NewExporter (URI : String) (metrics : List String) : Exporter :=
  ⟨URI, metrics, ""⟩

/-- Method `GetV3URI`: appends `xml/v3/<metric>` with exactly one `/`.  The source
indexes `e.URI[len(e.URI)-1]` without a length check; for the empty URI
this is a Go runtime panic (index out of range), modelled as `none`. -/
def GetV3URI (e : Exporter) (metric : String) : Option String :=
  match e.URI.data.getLast? with
  | none => none
  | some c =>
    if c = '/' then some (e.URI ++ "xml/v3/" ++ metric)
    else some (e.URI ++ "/xml/v3/" ++ metric)

/-- Method `GetVersion`: returns the cached `e.version` if non-empty, else probes
`GET <base>/xml/v3/status` and decides by status code: `≥ 500` is an error,
`200 ≤ s < 300` is `"v3"`, anything else is `"v2"`. -/
def GetVersion (e : Exporter) (net : Net) : Eff String :=
  if e.version ≠ "" then ⟨some (.ok e.version), []⟩
  else
    match GetV3URI e "status" with
    | none => ⟨none, []⟩
    | some uri =>
      match net uri with
      | .error er => ⟨some (.error er), [uri]⟩
      | .ok resp =>
        if 500 ≤ resp.status then ⟨some (.error resp.statusLine), [uri]⟩
        else if resp.status < 300 ∧ 200 ≤ resp.status then
          ⟨some (.ok "v3"), [uri]⟩
        else ⟨some (.ok "v2"), [uri]⟩

/-- The `client.Get` + `ioutil.ReadAll` core of `Fetch`. -/
def fetchBody (net : Net) (uri : String) : Except String String :=
  match net uri with
  | .error er => .error er
  | .ok resp => resp.body

/-- Method `Fetch`: one GET, returning the raw body. -/
def Fetch (net : Net) (uri : String) : Eff String :=
  ⟨some (fetchBody net uri), [uri]⟩

/-- Method `FetchV2`: one fetch of the bare base URI, then one unmarshal. -/
def FetchV2 (e : Exporter) (net : Net) (unm : UnmV2) : Eff BindRootV2 :=
  match fetchBody net e.URI with
  | .error er => ⟨some (.error er), [e.URI]⟩
  | .ok data =>
    match unm data with
    | .error er => ⟨some (.error er), [e.URI]⟩
    | .ok root => ⟨some (.ok root), [e.URI]⟩

/-- One Gen3 group step: fetch `uri` and unmarshal the body into the
accumulator `acc`. -/
def groupStep (net : Net) (unm : UnmV3) (acc : BindRootV3) (uri : String) :
    Except String BindRootV3 :=
  match fetchBody net uri with
  | .error er => .error er
  | .ok body => unm body acc

/-- The `for _, metric := range e.metrics` loop of `FetchV3`: fetch and
unmarshal each group in order into the shared accumulator, returning on the
first error. -/
def fetchV3Loop (e : Exporter) (net : Net) (unm : UnmV3) :
    List String → BindRootV3 → Eff BindRootV3
  | [], acc => ⟨some (.ok acc), []⟩
  | g :: gs, acc =>
    match GetV3URI e g with
    | none => ⟨none, []⟩
    | some uri =>
      match groupStep net unm acc uri with
      | .error er => ⟨some (.error er), [uri]⟩
      | .ok acc' =>
        let rest := fetchV3Loop e net unm gs acc'
        ⟨rest.val, uri :: rest.reqs⟩

/-- Replace the first element with the same key, else append: the building
block of the last-wins deduplication. -/
def upsertKey {α β : Type} [DecidableEq β] (key : α → β) (x : α) :
    List α → List α
  | [] => [x]
  | y :: rest => if key y = key x then x :: rest else y :: upsertKey key x rest

/-- Last-wins deduplication of a list by key. -/
def dedupKey {α β : Type} [DecidableEq β] (key : α → β) (l : List α) :
    List α :=
  l.foldl (fun acc x => upsertKey key x acc) []

/-- Modelled from the spec: `BindRootV3.dedup` is declared in a repository
file that is not under `src/`; §4.4 specifies a deduplication pass in which
multiple metric groups reporting the same (counter-type, name[, view])
tuple are reconciled so each tuple survives exactly once, last observed
value winning. -/
def BindRootV3.dedup (root : BindRootV3) : BindRootV3 :=
  { server :=
      ⟨dedupKey (fun g => g.type)
        (root.server.counters.map
          (fun g => ⟨g.type, dedupKey (fun c => c.name) g.counter⟩))⟩,
    views :=
      dedupKey (fun v => v.name)
        (root.views.map (fun v =>
          ⟨v.name, dedupKey (fun c => c.name) v.cache,
           dedupKey (fun g => g.type)
             (v.counters.map
               (fun g => ⟨g.type, dedupKey (fun c => c.name) g.counter⟩))⟩)),
    taskmgr := root.taskmgr }

/-- Method `FetchV3`: run the group loop from the zero-value accumulator, then
`root.dedup()`. -/
def FetchV3 (e : Exporter) (net : Net) (unm : UnmV3) : Eff BindRootV3 :=
  let r := fetchV3Loop e net unm e.metrics emptyV3
  match r.val with
  | some (.ok root) => ⟨some (.ok root.dedup), r.reqs⟩
  | v => ⟨v, r.reqs⟩

/-- Model of `strings.TrimPrefix(s.Name, "Qry")` as used on server counters. -/
def trimQry (n : String) : String := strTrim n "Qry"

/-- Method `UpdateV2`: emit the Gen2 snapshot, in source order: incoming queries,
incoming requests, mapped name-server counters (names missing from
`serverLabelStats` are skipped), then per view the cache gauges, outgoing
query counters, mapped resolver counters (both tables probed
independently), and — only when `histogramV2` succeeds — the RTT histogram
(on error the source merely logs a warning), and finally the task-manager
gauges. -/
def UpdateV2 (root : BindRootV2) : List Metric :=
  let stats := root.bind.statistics
  (stats.server.queriesIn.rdtype.map
    (fun s => Metric.counter incomingQueries s.counter [s.name])) ++
  (stats.server.requests.opcode.map
    (fun s => Metric.counter incomingRequests s.counter [s.name])) ++
  (stats.server.nsStats.filterMap
    (fun s => (serverLabelStats s.name).map
      (fun desc => Metric.counter desc s.counter [trimQry s.name]))) ++
  (stats.views.flatMap (fun v =>
    (v.cache.map (fun s => Metric.gauge resolverCache s.counter [v.name, s.name])) ++
    (v.rdtype.map (fun s => Metric.counter resolverQueries s.counter [v.name, s.name])) ++
    (v.resstat.flatMap (fun s =>
      ((resolverMetricStats s.name).toList.map
        (fun desc => Metric.counter desc s.counter [v.name])) ++
      ((resolverLabelStats s.name).toList.map
        (fun desc => Metric.counter desc s.counter [v.name, s.name])))) ++
    (match histogramV2 v.resstat with
     | .ok (buckets, count) =>
       [Metric.histo resolverQueryDuration count buckets [v.name]]
     | .error _ => []))) ++
  [Metric.gauge tasksRunning stats.taskmgr.threadModel.tasksRunning [],
   Metric.gauge workerThreads stats.taskmgr.threadModel.workerThreads []]

/-- Method `UpdateV3`: emit the Gen3 snapshot, in source order: the typed server
counter groups (`qtype`, `opcode`, `nsstat`; other types are skipped), then
per view the cache gauges and the typed view counter groups (`resqtype`,
`resstats` — the latter also carrying the RTT histogram when `histogramV3`
succeeds), and finally the task-manager gauges. -/
def UpdateV3 (root : BindRootV3) : List Metric :=
  (root.server.counters.flatMap (fun g =>
    if g.type = "qtype" then
      g.counter.map (fun c => Metric.counter incomingQueries c.counter [c.name])
    else if g.type = "opcode" then
      g.counter.map (fun c => Metric.counter incomingRequests c.counter [c.name])
    else if g.type = "nsstat" then
      g.counter.filterMap (fun c => (serverLabelStats c.name).map
        (fun desc => Metric.counter desc c.counter [trimQry c.name]))
    else [])) ++
  (root.views.flatMap (fun v =>
    (v.cache.map (fun c => Metric.gauge resolverCache c.counter [v.name, c.name])) ++
    (v.counters.flatMap (fun g =>
      (if g.type = "resqtype" then
        g.counter.map (fun c => Metric.counter resolverQueries c.counter [v.name, c.name])
      else []) ++
      (if g.type = "resstats" then
        (g.counter.flatMap (fun c =>
          ((resolverMetricStats c.name).toList.map
            (fun desc => Metric.counter desc c.counter [v.name])) ++
          ((resolverLabelStats c.name).toList.map
            (fun desc => Metric.counter desc c.counter [v.name, c.name])))) ++
        (match histogramV3 g.counter with
         | .ok (buckets, count) =>
           [Metric.histo resolverQueryDuration count buckets [v.name]]
         | .error _ => [])
      else []))))) ++
  [Metric.gauge tasksRunning root.taskmgr.threadModel.tasksRunning [],
   Metric.gauge workerThreads root.taskmgr.threadModel.workerThreads []]

/-- Outcome of one `Collect` scrape cycle: the metrics sent on the channel
(in order; the deferred `up` gauge is always last, and is sent even while a
panic unwinds), the URIs requested, and whether the cycle panicked. -/
structure CollectOut where
  metrics : List Metric
  reqs : List String
  panicked : Bool
deriving Repr

/-- Method `Collect` (the exporter of `bind_exporter.go`): `status` starts at 0
and flips to 1 only after a successful fetch+unmarshal; the deferred
function emits `up` with the final `status`.  A failing `GetVersion`,
`FetchV3` or `FetchV2` leaves `status = 0`; histogram parse warnings inside
`UpdateV2`/`UpdateV3` do not touch `status`. -/
def Collect (e : Exporter) (net : Net) (u2 : UnmV2) (u3 : UnmV3) :
    CollectOut :=
  let gv := GetVersion e net
  match gv.val with
  | none => ⟨[upMetric 0], gv.reqs, true⟩
  | some (.error _) => ⟨[upMetric 0], gv.reqs, false⟩
  | some (.ok version) =>
    if version = "v3" then
      let f := FetchV3 e net u3
      match f.val with
      | none => ⟨[upMetric 0], gv.reqs ++ f.reqs, true⟩
      | some (.error _) => ⟨[upMetric 0], gv.reqs ++ f.reqs, false⟩
      | some (.ok root) =>
        ⟨UpdateV3 root ++ [upMetric 1], gv.reqs ++ f.reqs, false⟩
    else
      let f := FetchV2 e net u2
      match f.val with
      | none => ⟨[upMetric 0], gv.reqs ++ f.reqs, true⟩
      | some (.error _) => ⟨[upMetric 0], gv.reqs ++ f.reqs, false⟩
      | some (.ok root) =>
        ⟨UpdateV2 root ++ [upMetric 1], gv.reqs ++ f.reqs, false⟩

/-! ## The legacy exporter (`src/unnamed/part_000`)

An earlier revision of the same collector: one GET against the base URI, a
body read, then `status = 1` is assigned *before* `xml.Unmarshal` is
checked, so an unmarshal failure returns with `up = 1`.  Its `Isc` tree is
read through the same `Bind.Statistics.Server.{QueriesIn.Rdtype,
Requests.Opcode}` paths as `BindRootV2`, so the `UnmV2` oracle is reused;
its two descriptors carry the same fully qualified names (its
`incomingQueries` uses label key `name` instead of `type`, which does not
change the descriptor name). -/

/-- Method `Collect` of the legacy exporter. -/
def legacyCollect (uri : String) (net : Net) (unm : UnmV2) : List Metric :=
  match net uri with
  | .error _ => [upMetric 0]
  | .ok resp =>
    match resp.body with
    | .error _ => [upMetric 0]
    | .ok body =>
      -- here the source assigns `status = 1`, before unmarshalling
      match unm body with
      | .error _ => [upMetric 1]
      | .ok root =>
        (root.bind.statistics.server.queriesIn.rdtype.map
          (fun s => Metric.counter incomingQueries s.counter [s.name])) ++
        (root.bind.statistics.server.requests.opcode.map
          (fun s => Metric.counter incomingRequests s.counter [s.name])) ++
        [upMetric 1]

/-! ## Derived definitions used in the statements and proofs -/

/-- Whether a scrape cycle of `Collect` reaches the success assignment
`status = 1`: version detection must succeed and the fetch+unmarshal of the
selected generation must succeed. -/
def scrapeOk (e : Exporter) (net : Net) (u2 : UnmV2) (u3 : UnmV3) : Bool :=
  match (GetVersion e net).val with
  | some (.ok v) =>
    if v = "v3" then
      match (FetchV3 e net u3).val with
      | some (.ok _) => true
      | _ => false
    else
      match (FetchV2 e net u2).val with
      | some (.ok _) => true
      | _ => false
  | _ => false

/-- State-passing form of `GetVersion`: the method body contains no
assignment to any `Exporter` field, so the translated state out is the
state in. -/
def GetVersionS (e : Exporter) (net : Net) : Eff String × Exporter :=
  (GetVersion e net, e)

/-- State-passing form of `Collect`: neither `Collect` nor anything it
calls assigns an `Exporter` field. -/
def CollectS (e : Exporter) (net : Net) (u2 : UnmV2) (u3 : UnmV3) :
    CollectOut × Exporter :=
  (Collect e net u2 u3, e)

/-- Running `n` consecutive scrape cycles, threading the exporter state. -/
def scrapeCycles (net : Net) (u2 : UnmV2) (u3 : UnmV3) :
    Nat → Exporter → Exporter
  | 0, e => e
  | n + 1, e => scrapeCycles net u2 u3 n (CollectS e net u2 u3).2

/-- A Gen2 snapshot whose only content is the given name-server operational
counter list (used to isolate the `serverLabelStats` mapping). -/
def mkNsRoot (ns : List StatV2) : BindRootV2 := ⟨⟨⟨⟨[]⟩, ⟨[]⟩, ns⟩, [], ⟨⟨0, 0⟩⟩⟩⟩

/-- The (bound, raw value) pair a Gen3 counter contributes to the RTT
bucket map, if any. -/
def extractPair (c : CounterV3) : Option (Bound × Nat) :=
  if strHasPrefix c.name qryRTT then
    (rttBound c.name).toOption.map (fun b => (b, c.counter))
  else none

/-- The (bound, raw value) pair a Gen2 stat contributes to the RTT bucket
map, if any. -/
def extractPairV2 (s : StatV2) : Option (Bound × Nat) :=
  if strHasPrefix s.name qryRTT then
    (rttBound s.name).toOption.map (fun b => (b, s.counter))
  else none

/-- A Gen3 counter is `good` when it is either not RTT-tagged or its bound
parses. -/
def goodC (c : CounterV3) : Bool :=
  !strHasPrefix c.name qryRTT || (rttBound c.name).toOption.isSome

/-- A Gen2 stat is `good` when it is either not RTT-tagged or its bound
parses. -/
def goodS (s : StatV2) : Bool :=
  !strHasPrefix s.name qryRTT || (rttBound s.name).toOption.isSome

/-- A concrete exporter used to exercise the Gen3 group loop. -/
def wExporter : Exporter := ⟨"http://h", ["mem", "server", "net"], ""⟩

/-- A concrete network where only the `server` group endpoint is broken. -/
def wNet : Net := fun u =>
  if u = "http://h/xml/v3/server" then .error "connection refused"
  else .ok ⟨200, "200 OK", .ok "<x/>"⟩

/-- A concrete always-succeeding Gen2 unmarshal oracle. -/
def wU2 : UnmV2 := fun _ => .ok emptyV2

/-- A concrete always-succeeding Gen3 unmarshal oracle. -/
def wU3 : UnmV3 := fun _ acc => .ok acc

end BindExporter

namespace BindExporter

/-! ## Basic facts -/

/-- A string is empty exactly when its character list is. -/
theorem string_data_eq_nil {s : String} : s.data = [] ↔ s = "" := by
  constructor
  · intro h; exact String.ext h
  · intro h; rw [h]

/-- Here `Rat.divInt n 1000` is exactly the division `n / 1000` performed by the
source; the `divInt` form is used in `rttBound` because it evaluates under
`decide`. -/
theorem rttBound_div (n : Nat) : Rat.divInt n 1000 = (n : ℚ) / 1000 := by
  rw [Rat.divInt_eq_div]; norm_num

/-! ## Claim theorems -/

/-- C3: on the Gen2 resolver-operation counter list
`[(QryRTT10, 5), (QryRTT100, 3), (QryRTT100+, 2)]` in declaration order,
`histogramV2` returns the bucket map `{0.01 ↦ 5, 0.1 ↦ 8, +Inf ↦ 10}` with
total count 10, the running sum accumulated in input order without
re-sorting by bound (the association list records the insertion order). -/
theorem histogramV2_declared_order :
    histogramV2 [⟨"QryRTT10", 5⟩, ⟨"QryRTT100", 3⟩, ⟨"QryRTT100+", 2⟩] =
      .ok ([(.fin (Rat.divInt 1 100), 5), (.fin (Rat.divInt 1 10), 8),
            (.inf, 10)], 10) ∧
    Rat.divInt 1 100 = (0.01 : ℚ) ∧ Rat.divInt 1 10 = (0.1 : ℚ) := by
  refine ⟨by decide, ?_, ?_⟩ <;> · rw [Rat.divInt_eq_div]; norm_num

/-- C6: for a non-empty base URI, `GetV3URI` inserts exactly one path
separator before `xml/v3/<group>`: a base not ending in `/` gets one
inserted, and a base of the form `w ++ "/"` reuses its own trailing
separator, both producing `… ++ "/xml/v3/" ++ group`. -/
theorem getV3URI_single_separator (e e' : Exporter) (w m : String)
    (h1 : e.URI ≠ "") (h2 : e.URI.data.getLast? ≠ some '/')
    (h3 : e'.URI = w ++ "/") :
    GetV3URI e m = some (e.URI ++ ("/xml/v3/" ++ m)) ∧
    GetV3URI e' m = some (w ++ ("/xml/v3/" ++ m)) := by
  constructor
  · unfold GetV3URI
    cases hl : e.URI.data.getLast? with
    | none =>
      exact absurd (string_data_eq_nil.mp (List.getLast?_eq_none_iff.mp hl)) h1
    | some c =>
      have hc : c ≠ '/' := by rintro rfl; exact h2 hl
      simp [hc, String.append_assoc]
  · unfold GetV3URI
    rw [h3]
    have hl : (w ++ "/").data.getLast? = some '/' := by
      rw [String.data_append]
      exact List.getLast?_concat _
    rw [hl]
    dsimp only
    rw [if_pos rfl]
    congr 1
    have hjoin : ("/" : String) ++ "xml/v3/" = "/xml/v3/" := by decide
    calc ((w ++ "/") ++ "xml/v3/") ++ m
        = (w ++ ("/" ++ "xml/v3/")) ++ m := by rw [String.append_assoc w]
      _ = (w ++ "/xml/v3/") ++ m := by rw [hjoin]
      _ = w ++ ("/xml/v3/" ++ m) := by rw [String.append_assoc]

/-- C6 witness: a concrete base URI with and without the trailing slash
produces the identical group request path. -/
theorem getV3URI_single_separator_witness :
    GetV3URI ⟨"http://h:8053", [], ""⟩ "server" =
      some ("http://h:8053" ++ ("/xml/v3/" ++ "server")) ∧
    GetV3URI ⟨"http://h:8053/", [], ""⟩ "server" =
      some ("http://h:8053" ++ ("/xml/v3/" ++ "server")) :=
  getV3URI_single_separator ⟨"http://h:8053", [], ""⟩ ⟨"http://h:8053/", [], ""⟩
    "http://h:8053" "server" (by decide) (by decide) rfl

/-- C2: with an empty cached version, `GetVersion` resolves the probe
response by status code: 200–299 gives `"v3"`, any other status below 500
gives `"v2"`, and a status of 500 or more gives an error (the status line)
without guessing a generation. -/
theorem getVersion_by_status (e : Exporter) (net : Net) (uri : String)
    (resp : HTTPResp) (hv : e.version = "")
    (hu : GetV3URI e "status" = some uri) (hn : net uri = .ok resp) :
    (200 ≤ resp.status → resp.status < 300 →
      (GetVersion e net).val = some (.ok "v3")) ∧
    (resp.status < 500 → resp.status < 200 ∨ 300 ≤ resp.status →
      (GetVersion e net).val = some (.ok "v2")) ∧
    (500 ≤ resp.status →
      (GetVersion e net).val = some (.error resp.statusLine)) := by
  unfold GetVersion
  rw [hv]
  simp only [ne_eq, not_true_eq_false, if_false, hu, hn]
  refine ⟨?_, ?_, ?_⟩
  · intro h1 h2
    rw [if_neg (by omega), if_pos (by omega)]
  · intro h1 h2
    rw [if_neg (by omega), if_neg (by omega)]
  · intro h1
    rw [if_pos (by omega)]

/-- C2 witness: statuses 250, 404 and 503 at a concrete exporter. -/
theorem getVersion_by_status_witness :
    (GetVersion ⟨"http://h", [], ""⟩
        (fun _ => .ok ⟨250, "250 OK", .ok ""⟩)).val = some (.ok "v3") ∧
    (GetVersion ⟨"http://h", [], ""⟩
        (fun _ => .ok ⟨404, "404 Not Found", .ok ""⟩)).val = some (.ok "v2") ∧
    (GetVersion ⟨"http://h", [], ""⟩
        (fun _ => .ok ⟨503, "503 Service Unavailable", .ok ""⟩)).val =
      some (.error "503 Service Unavailable") :=
  ⟨(getVersion_by_status ⟨"http://h", [], ""⟩ _ "http://h/xml/v3/status"
      ⟨250, "250 OK", .ok ""⟩ rfl (by decide) rfl).1 (by decide) (by decide),
   (getVersion_by_status ⟨"http://h", [], ""⟩ _ "http://h/xml/v3/status"
      ⟨404, "404 Not Found", .ok ""⟩ rfl (by decide) rfl).2.1 (by decide)
      (Or.inr (by decide)),
   (getVersion_by_status ⟨"http://h", [], ""⟩ _ "http://h/xml/v3/status"
      ⟨503, "503 Service Unavailable", .ok ""⟩ rfl (by decide) rfl).2.2
      (by decide)⟩

/-- C7: an operational counter `QrySuccess = 10` is emitted as
`responses_total{result="Success"} = 10` (descriptor `serverReponses`, the
`Qry` tag stripped from the label), and an operational counter whose name
is missing from `serverLabelStats` produces no series at all (the two
task-manager gauges are emitted unconditionally; `UpdateV2` is total, so no
error is possible). -/
theorem serverLabelStats_mapping :
    (UpdateV2 (mkNsRoot [⟨"QrySuccess", 10⟩]) =
      [Metric.counter serverReponses 10 ["Success"],
       Metric.gauge tasksRunning 0 [], Metric.gauge workerThreads 0 []] ∧
     serverReponses = "bind_responses_total") ∧
    (∀ n c, serverLabelStats n = none →
      UpdateV2 (mkNsRoot [⟨n, c⟩]) =
        [Metric.gauge tasksRunning 0 [], Metric.gauge workerThreads 0 []]) := by
  constructor
  · exact ⟨by decide, by decide⟩
  · intro n c h
    simp [UpdateV2, mkNsRoot, h]

/-- C7 witness: the unmapped name `QryBogus` emits nothing. -/
theorem serverLabelStats_mapping_witness :
    UpdateV2 (mkNsRoot [⟨"QryBogus", 7⟩]) =
      [Metric.gauge tasksRunning 0 [], Metric.gauge workerThreads 0 []] :=
  serverLabelStats_mapping.2 "QryBogus" 7 (by decide)

/-- With a non-empty URI, `GetV3URI` yields a request path. -/
theorem getV3URI_isSome (e : Exporter) (m : String) (h : e.URI ≠ "") :
    ∃ u, GetV3URI e m = some u := by
  unfold GetV3URI
  cases hl : e.URI.data.getLast? with
  | none =>
    exact absurd (string_data_eq_nil.mp (List.getLast?_eq_none_iff.mp hl)) h
  | some c =>
    dsimp only
    split <;> exact ⟨_, rfl⟩

/-- With a non-empty URI, `GetVersion` cannot panic. -/
theorem getVersion_no_panic (e : Exporter) (net : Net) (h : e.URI ≠ "") :
    (GetVersion e net).val ≠ none := by
  unfold GetVersion
  by_cases hv : e.version ≠ ""
  · rw [if_pos hv]; simp
  · rw [if_neg hv]
    obtain ⟨u, hu⟩ := getV3URI_isSome e "status" h
    rw [hu]
    cases hn : net u with
    | error er => simp [hn]
    | ok resp => simp only [hn]; split_ifs <;> simp

/-- With a non-empty URI, the Gen3 group loop cannot panic. -/
theorem fetchV3Loop_no_panic (e : Exporter) (net : Net) (u3 : UnmV3)
    (h : e.URI ≠ "") :
    ∀ (gs : List String) (acc : BindRootV3),
      (fetchV3Loop e net u3 gs acc).val ≠ none := by
  intro gs
  induction gs with
  | nil => intro acc; simp [fetchV3Loop]
  | cons g gs ih =>
    intro acc
    unfold fetchV3Loop
    obtain ⟨u, hu⟩ := getV3URI_isSome e g h
    rw [hu]
    cases hs : groupStep net u3 acc u with
    | error er => simp [hs]
    | ok acc' => simp only [hs]; exact ih acc'

/-- With a non-empty URI, `FetchV3` cannot panic. -/
theorem fetchV3_no_panic (e : Exporter) (net : Net) (u3 : UnmV3)
    (h : e.URI ≠ "") : (FetchV3 e net u3).val ≠ none := by
  unfold FetchV3
  cases hl : (fetchV3Loop e net u3 e.metrics emptyV3).val with
  | none => exact absurd hl (fetchV3Loop_no_panic e net u3 h e.metrics emptyV3)
  | some r => cases r with
    | error er => simp [hl]
    | ok root => simp [hl]

/-- Method `FetchV2` cannot panic (its body contains no unchecked indexing). -/
theorem fetchV2_no_panic (e : Exporter) (net : Net) (u2 : UnmV2) :
    (FetchV2 e net u2).val ≠ none := by
  unfold FetchV2
  cases hb : fetchBody net e.URI with
  | error er => simp [hb]
  | ok data =>
    simp only [hb]
    cases hu : u2 data with
    | error er => simp [hu]
    | ok root => simp [hu]

/-- C10: for a non-empty base URI `GetV3URI` (and hence `GetVersion` and
`FetchV3`) always produces a value without panicking, while for the empty
base URI `GetV3URI` hits the unchecked `e.URI[len(e.URI)-1]` index
(modelled `none`) and a scrape cycle of `Collect` panics instead of
returning an error. -/
theorem getV3URI_empty_uri_panics :
    (∀ (e : Exporter) (m : String), e.URI ≠ "" → (GetV3URI e m).isSome) ∧
    (∀ (e : Exporter) (m : String), e.URI = "" → GetV3URI e m = none) ∧
    (∀ (e : Exporter) (net : Net) (u3 : UnmV3), e.URI ≠ "" →
      (GetVersion e net).val ≠ none ∧ (FetchV3 e net u3).val ≠ none) ∧
    (∀ (ms : List String) (net : Net) (u2 : UnmV2) (u3 : UnmV3),
      (Collect ⟨"", ms, ""⟩ net u2 u3).panicked = true) := by
  refine ⟨?_, ?_, ?_, ?_⟩
  · intro e m h
    obtain ⟨u, hu⟩ := getV3URI_isSome e m h
    rw [hu]; rfl
  · intro e m h
    unfold GetV3URI
    rw [h]
    rfl
  · intro e net u3 h
    exact ⟨getVersion_no_panic e net h, fetchV3_no_panic e net u3 h⟩
  · intro ms net u2 u3
    rfl

/-- C10 witness: concrete panic-free and panicking scrapes. -/
theorem getV3URI_empty_uri_panics_witness :
    (GetV3URI ⟨"http://h", [], ""⟩ "status").isSome ∧
    GetV3URI ⟨"", [], ""⟩ "status" = none ∧
    ((GetVersion ⟨"http://h", [], ""⟩ (fun _ => .error "down")).val ≠ none ∧
     (FetchV3 ⟨"http://h", [], ""⟩ (fun _ => .error "down")
        (fun _ acc => .ok acc)).val ≠ none) ∧
    (Collect ⟨"", ["server"], ""⟩ (fun _ => .error "down")
      (fun _ => .error "x") (fun _ acc => .ok acc)).panicked = true :=
  ⟨getV3URI_empty_uri_panics.1 ⟨"http://h", [], ""⟩ "status" (by decide),
   getV3URI_empty_uri_panics.2.1 ⟨"", [], ""⟩ "status" rfl,
   getV3URI_empty_uri_panics.2.2.1 ⟨"http://h", [], ""⟩ _ _ (by decide),
   getV3URI_empty_uri_panics.2.2.2 ["server"] _ _ _⟩

/-- With an empty cached version, `GetVersion` requests exactly the status
probe URI. -/
theorem getVersion_probe_reqs (e : Exporter) (net : Net)
    (hv : e.version = "") (u : String) (hu : GetV3URI e "status" = some u) :
    (GetVersion e net).reqs = [u] := by
  unfold GetVersion
  rw [hv, if_neg (by simp), hu]
  cases hn : net u with
  | error er => simp [hn]
  | ok resp => simp only [hn]; split_ifs <;> rfl

/-- C9: `NewExporter` leaves the `version` field at its zero value `""`,
`GetVersion` (state-passing form) leaves every `Exporter` field unchanged,
no sequence of scrape cycles ever changes the exporter state — so the
cached-version check never fires — and consequently every scrape cycle
issues the version probe request. -/
theorem version_cache_never_populated (uri : String) (ms : List String)
    (net : Net) (u2 : UnmV2) (u3 : UnmV3) (h : uri ≠ "") :
    (NewExporter uri ms).version = "" ∧
    (∀ (e : Exporter) (net' : Net), (GetVersionS e net').2 = e) ∧
    (∀ n, scrapeCycles net u2 u3 n (NewExporter uri ms) = NewExporter uri ms) ∧
    (∀ n, ∃ u, GetV3URI (NewExporter uri ms) "status" = some u ∧
      (GetVersion (scrapeCycles net u2 u3 n (NewExporter uri ms)) net).reqs
        = [u]) := by
  have hcycles : ∀ n, scrapeCycles net u2 u3 n (NewExporter uri ms) =
      NewExporter uri ms := by
    intro n
    induction n with
    | zero => rfl
    | succ n ih => exact ih
  refine ⟨rfl, fun e net' => rfl, hcycles, ?_⟩
  intro n
  obtain ⟨u, hu⟩ := getV3URI_isSome (NewExporter uri ms) "status" h
  rw [hcycles n]
  exact ⟨u, hu, getVersion_probe_reqs _ net rfl u hu⟩

/-- C9 witness: three concrete scrape cycles leave the exporter unchanged
and the third still issues the probe. -/
theorem version_cache_never_populated_witness :
    (NewExporter "http://h" ["server"]).version = "" ∧
    scrapeCycles (fun _ => .error "down") (fun _ => .error "x")
      (fun _ acc => .ok acc) 3 (NewExporter "http://h" ["server"]) =
      NewExporter "http://h" ["server"] ∧
    ∃ u, GetV3URI (NewExporter "http://h" ["server"]) "status" = some u ∧
      (GetVersion (scrapeCycles (fun _ => .error "down") (fun _ => .error "x")
        (fun _ acc => .ok acc) 3 (NewExporter "http://h" ["server"]))
        (fun _ => .error "down")).reqs = [u] :=
  ⟨(version_cache_never_populated "http://h" ["server"] (fun _ => .error "down")
      (fun _ => .error "x") (fun _ acc => .ok acc) (by decide)).1,
   (version_cache_never_populated "http://h" ["server"] (fun _ => .error "down")
      (fun _ => .error "x") (fun _ acc => .ok acc) (by decide)).2.2.1 3,
   (version_cache_never_populated "http://h" ["server"] (fun _ => .error "down")
      (fun _ => .error "x") (fun _ acc => .ok acc) (by decide)).2.2.2 3⟩

/-- Method `Collect` of `bind_exporter.go` satisfies the `up` contract: it never
panics on a non-empty URI, the deferred `up` gauge is the last metric sent
and carries 1 exactly when detection and fetch+unmarshal succeeded
(`scrapeOk`), and on failure nothing but `up = 0` is emitted. -/
theorem collect_up_status (e : Exporter) (net : Net) (u2 : UnmV2)
    (u3 : UnmV3) (h : e.URI ≠ "") :
    (Collect e net u2 u3).panicked = false ∧
    (Collect e net u2 u3).metrics.getLast? =
      some (upMetric (if scrapeOk e net u2 u3 then 1 else 0)) ∧
    (scrapeOk e net u2 u3 = false →
      (Collect e net u2 u3).metrics = [upMetric 0]) := by
  unfold Collect scrapeOk
  cases hgv : (GetVersion e net).val with
  | none => exact absurd hgv (getVersion_no_panic e net h)
  | some r =>
    cases r with
    | error er => simp [hgv]
    | ok v =>
      simp only [hgv]
      by_cases hv : v = "v3"
      · subst hv
        rw [if_pos rfl]
        cases hf : (FetchV3 e net u3).val with
        | none => exact absurd hf (fetchV3_no_panic e net u3 h)
        | some fr =>
          cases fr with
          | error er => simp [hf]
          | ok root => simp [hf, List.getLast?_concat]
      · rw [if_neg hv]
        cases hf : (FetchV2 e net u2).val with
        | none => exact absurd hf (fetchV2_no_panic e net u2)
        | some fr =>
          cases fr with
          | error er => simp [hf, hv]
          | ok root => simp [hf, hv, List.getLast?_concat]

/-- C1 (the legacy exporter violates it): its `Collect` assigns `status = 1`
before checking `xml.Unmarshal`, so a response that fetches fine but fails
to unmarshal is reported with `up = 1`; the current exporter's `Collect`
reports `up = 0` in the analogous situation. -/
theorem legacy_collect_up_on_unmarshal_failure :
    legacyCollect "http://h" (fun _ => .ok ⟨200, "200 OK", .ok "<bad"⟩)
      (fun _ => .error "XML syntax error") = [upMetric 1] ∧
    (Collect ⟨"http://h", ["server"], ""⟩
      (fun _ => .ok ⟨200, "200 OK", .ok "<bad"⟩)
      (fun _ => .error "XML syntax error")
      (fun _ _ => .error "XML syntax error")).metrics = [upMetric 0] := by
  exact ⟨rfl, rfl⟩

/-- A fully successful Gen3 group loop requests exactly the configured
groups, in order. -/
theorem fetchV3Loop_ok_reqs (e : Exporter) (net : Net) (u3 : UnmV3)
    (h : e.URI ≠ "") :
    ∀ (gs : List String) (acc root : BindRootV3),
      (fetchV3Loop e net u3 gs acc).val = some (.ok root) →
      (fetchV3Loop e net u3 gs acc).reqs =
        gs.filterMap (fun g => GetV3URI e g) := by
  intro gs
  induction gs with
  | nil => intro acc root _; rfl
  | cons g gs ih =>
    intro acc root hok
    obtain ⟨u, hu⟩ := getV3URI_isSome e g h
    unfold fetchV3Loop at hok ⊢
    rw [hu] at hok ⊢
    dsimp only at hok ⊢
    cases hs : groupStep net u3 acc u with
    | error er => rw [hs] at hok; simp at hok
    | ok acc' =>
      rw [hs] at hok
      dsimp only at hok
      rw [List.filterMap_cons, hu]
      dsimp only
      rw [ih acc' root hok]

/-- A failing Gen3 group loop splits the group list into a fully processed
initial segment `p`, the failing group `g`, and a tail `s` of groups that
are never fetched: exactly the URIs of `p` and `g` are requested, in
order. -/
theorem fetchV3Loop_error_split (e : Exporter) (net : Net) (u3 : UnmV3)
    (h : e.URI ≠ "") :
    ∀ (gs : List String) (acc0 : BindRootV3) (er : String),
      (fetchV3Loop e net u3 gs acc0).val = some (.error er) →
      ∃ p g s acc u, gs = p ++ g :: s ∧
        fetchV3Loop e net u3 p acc0 =
          ⟨some (.ok acc), p.filterMap (fun x => GetV3URI e x)⟩ ∧
        GetV3URI e g = some u ∧
        groupStep net u3 acc u = .error er ∧
        (fetchV3Loop e net u3 gs acc0).reqs =
          p.filterMap (fun x => GetV3URI e x) ++ [u] := by
  intro gs
  induction gs with
  | nil => intro acc0 er herr; simp [fetchV3Loop] at herr
  | cons g gs ih =>
    intro acc0 er herr
    obtain ⟨u, hu⟩ := getV3URI_isSome e g h
    unfold fetchV3Loop at herr
    rw [hu] at herr
    dsimp only at herr
    cases hs : groupStep net u3 acc0 u with
    | error er' =>
      rw [hs] at herr
      dsimp only at herr
      simp only [Option.some.injEq, Except.error.injEq] at herr
      subst herr
      refine ⟨[], g, gs, acc0, u, rfl, rfl, hu, hs, ?_⟩
      unfold fetchV3Loop
      rw [hu]
      dsimp only
      rw [hs]
      rfl
    | ok acc' =>
      rw [hs] at herr
      dsimp only at herr
      obtain ⟨p', g', s', acc'', u', hsplit, hloop, hu', hstep, hreqs⟩ :=
        ih acc' er herr
      refine ⟨g :: p', g', s', acc'', u', by simp [hsplit], ?_, hu', hstep, ?_⟩
      · show fetchV3Loop e net u3 (g :: p') acc0 = _
        unfold fetchV3Loop
        rw [hu]
        dsimp only
        rw [hs]
        dsimp only
        rw [hloop]
        simp [List.filterMap_cons, hu]
      · unfold fetchV3Loop
        rw [hu]
        dsimp only
        rw [hs]
        dsimp only
        rw [hreqs]
        simp [List.filterMap_cons, hu]

/-- C8: `FetchV3` walks the configured metric group list in order; when
every group succeeds it requests exactly the group URIs in order, and on
the first fetch-or-unmarshal failure it returns that error having requested
only the prior groups and the failing one (later groups are never fetched);
in that cycle `Collect` emits only `up = 0`, using no partial results. -/
theorem fetchV3_first_error_aborts (e : Exporter) (net : Net) (u2 : UnmV2)
    (u3 : UnmV3) (h : e.URI ≠ "") :
    (∀ root, (FetchV3 e net u3).val = some (.ok root) →
      (FetchV3 e net u3).reqs = e.metrics.filterMap (fun g => GetV3URI e g)) ∧
    (∀ er, (FetchV3 e net u3).val = some (.error er) →
      ∃ p g s acc u, e.metrics = p ++ g :: s ∧
        fetchV3Loop e net u3 p emptyV3 =
          ⟨some (.ok acc), p.filterMap (fun x => GetV3URI e x)⟩ ∧
        GetV3URI e g = some u ∧
        groupStep net u3 acc u = .error er ∧
        (FetchV3 e net u3).reqs =
          p.filterMap (fun x => GetV3URI e x) ++ [u]) ∧
    (∀ er, (GetVersion e net).val = some (.ok "v3") →
      (FetchV3 e net u3).val = some (.error er) →
      (Collect e net u2 u3).metrics = [upMetric 0] ∧
      (Collect e net u2 u3).panicked = false) := by
  refine ⟨?_, ?_, ?_⟩
  · intro root hok
    simp only [FetchV3] at hok ⊢
    cases hl : (fetchV3Loop e net u3 e.metrics emptyV3).val with
    | none =>
      exact absurd hl (fetchV3Loop_no_panic e net u3 h e.metrics emptyV3)
    | some r =>
      cases r with
      | error er => rw [hl] at hok; simp at hok
      | ok root0 =>
        dsimp only
        exact fetchV3Loop_ok_reqs e net u3 h e.metrics emptyV3 root0 hl
  · intro er herr
    simp only [FetchV3] at herr ⊢
    cases hl : (fetchV3Loop e net u3 e.metrics emptyV3).val with
    | none =>
      exact absurd hl (fetchV3Loop_no_panic e net u3 h e.metrics emptyV3)
    | some r =>
      cases r with
      | ok root0 => rw [hl] at herr; simp at herr
      | error er0 =>
        rw [hl] at herr
        dsimp only at herr ⊢
        simp only [Option.some.injEq, Except.error.injEq] at herr
        subst herr
        exact fetchV3Loop_error_split e net u3 h e.metrics emptyV3 er0 hl
  · intro er hgv herr
    simp only [Collect]
    rw [hgv]
    dsimp only
    rw [if_pos rfl, herr]
    exact ⟨rfl, rfl⟩

/-- C8 witness: with groups `[mem, server, net]` and a network refusing
only the `server` endpoint, the loop requests `mem` then `server` and stops
with the error; `Collect` emits only `up = 0`. -/
theorem fetchV3_first_error_aborts_witness :
    (∃ p g s acc u, wExporter.metrics = p ++ g :: s ∧
        fetchV3Loop wExporter wNet wU3 p emptyV3 =
          ⟨some (.ok acc), p.filterMap (fun x => GetV3URI wExporter x)⟩ ∧
        GetV3URI wExporter g = some u ∧
        groupStep wNet wU3 acc u = .error "connection refused" ∧
        (FetchV3 wExporter wNet wU3).reqs =
          p.filterMap (fun x => GetV3URI wExporter x) ++ [u]) ∧
    ((Collect wExporter wNet wU2 wU3).metrics = [upMetric 0] ∧
     (Collect wExporter wNet wU2 wU3).panicked = false) :=
  ⟨(fetchV3_first_error_aborts wExporter wNet wU2 wU3 (by decide)).2.1
      "connection refused" (by decide),
   (fetchV3_first_error_aborts wExporter wNet wU2 wU3 (by decide)).2.2
      "connection refused" (by decide) (by decide)⟩

/-! ## Bucket-map lemmas for the histogram builders -/

/-- Upserting a fresh key appends. -/
theorem upsertB_not_mem (b : Bound) (v : Nat) :
    ∀ (m : List (Bound × Nat)), b ∉ m.map Prod.fst →
      upsertB b v m = m ++ [(b, v)] := by
  intro m
  induction m with
  | nil => intro _; rfl
  | cons x m ih =>
    intro hb
    rw [List.map_cons, List.mem_cons] at hb
    push_neg at hb
    unfold upsertB
    rw [if_neg (by exact fun hx => hb.1 hx.symm)]
    rw [ih hb.2, List.cons_append]

/-- Folding upserts of pairwise-fresh keys over a map disjoint from them
just appends the pairs. -/
theorem foldl_upsertB_append :
    ∀ (p m : List (Bound × Nat)), ((m ++ p).map Prod.fst).Nodup →
      p.foldl (fun a x => upsertB x.1 x.2 a) m = m ++ p := by
  intro p
  induction p with
  | nil => intro m _; simp
  | cons x p ih =>
    intro m hnd
    have hx : x.1 ∉ m.map Prod.fst := by
      rw [List.map_append, List.nodup_append] at hnd
      intro hmem
      exact hnd.2.2 hmem (by simp)
    rw [List.foldl_cons, upsertB_not_mem x.1 x.2 m hx]
    have : ((m ++ [x]) ++ p).map Prod.fst = (m ++ x :: p).map Prod.fst := by
      rw [List.append_assoc]
      rfl
    rw [ih (m ++ [(x.1, x.2)]) (by rw [this]; exact hnd), List.append_assoc]
    rfl

/-- When every counter is good, the first pass of `histogramV3` folds the
extracted pairs into the bucket map. -/
theorem pass1_ok_of_allGood :
    ∀ (l : List CounterV3) (m : List (Bound × Nat)), l.all goodC = true →
      histogramV3Pass1 l m =
        .ok ((l.filterMap extractPair).foldl (fun a x => upsertB x.1 x.2 a) m) := by
  intro l
  induction l with
  | nil => intro m _; rfl
  | cons c l ih =>
    intro m hall
    rw [List.all_cons, Bool.and_eq_true] at hall
    unfold histogramV3Pass1
    rw [List.filterMap_cons]
    cases hpre : strHasPrefix c.name qryRTT with
    | false =>
      rw [if_neg (by simp [hpre])]
      have : extractPair c = none := by unfold extractPair; rw [if_neg (by simp [hpre])]
      rw [this]
      exact ih m hall.2
    | true =>
      rw [if_pos rfl]
      have hg := hall.1
      unfold goodC at hg
      rw [hpre] at hg
      simp only [Bool.not_true, Bool.false_or] at hg
      cases hb : rttBound c.name with
      | error er => rw [hb] at hg; simp [Except.toOption] at hg
      | ok b =>
        have : extractPair c = some (b, c.counter) := by
          unfold extractPair
          rw [if_pos hpre, hb]
          rfl
        rw [this, List.foldl_cons]
        exact ih (upsertB b c.counter m) hall.2

/-- If the first pass of `histogramV3` succeeds, every counter was good. -/
theorem pass1_allGood_of_ok :
    ∀ (l : List CounterV3) (m m' : List (Bound × Nat)),
      histogramV3Pass1 l m = .ok m' → l.all goodC = true := by
  intro l
  induction l with
  | nil => intro m m' _; rfl
  | cons c l ih =>
    intro m m' hok
    unfold histogramV3Pass1 at hok
    rw [List.all_cons, Bool.and_eq_true]
    cases hpre : strHasPrefix c.name qryRTT with
    | false =>
      rw [if_neg (by simp [hpre])] at hok
      exact ⟨by unfold goodC; rw [hpre]; rfl, ih m m' hok⟩
    | true =>
      rw [if_pos hpre] at hok
      cases hb : rttBound c.name with
      | error er => rw [hb] at hok; exact absurd hok (by simp)
      | ok b =>
        rw [hb] at hok
        refine ⟨?_, ih (upsertB b c.counter m) m' hok⟩
        unfold goodC
        rw [hpre, hb]
        rfl

/-- Every key of an upserted map is the new key or an old key. -/
theorem mem_upsertB_keys (b : Bound) (v : Nat) :
    ∀ (m : List (Bound × Nat)) (x : Bound),
      x ∈ (upsertB b v m).map Prod.fst → x = b ∨ x ∈ m.map Prod.fst := by
  intro m
  induction m with
  | nil => intro x hx; simp [upsertB] at hx; exact Or.inl hx
  | cons y m ih =>
    intro x hx
    unfold upsertB at hx
    by_cases hy : y.1 = b
    · rw [if_pos hy] at hx
      rcases List.mem_cons.mp hx with h | h
      · exact Or.inl h
      · exact Or.inr (List.mem_cons_of_mem _ h)
    · rw [if_neg hy] at hx
      rcases List.mem_cons.mp hx with h | h
      · exact Or.inr (by simp [h])
      · rcases ih x h with h' | h'
        · exact Or.inl h'
        · exact Or.inr (List.mem_cons_of_mem _ h')

/-- Upserting preserves distinctness of the keys. -/
theorem upsertB_keys_nodup (b : Bound) (v : Nat) :
    ∀ (m : List (Bound × Nat)), (m.map Prod.fst).Nodup →
      ((upsertB b v m).map Prod.fst).Nodup := by
  intro m
  induction m with
  | nil => intro _; simp [upsertB]
  | cons y m ih =>
    intro hnd
    rw [List.map_cons, List.nodup_cons] at hnd
    unfold upsertB
    by_cases hy : y.1 = b
    · rw [if_pos hy, List.map_cons, List.nodup_cons]
      exact ⟨by rw [← hy]; exact hnd.1, hnd.2⟩
    · rw [if_neg hy, List.map_cons, List.nodup_cons]
      refine ⟨?_, ih hnd.2⟩
      intro hmem
      rcases mem_upsertB_keys b v m y.1 hmem with h | h
      · exact hy h
      · exact hnd.1 h

/-- The first pass of `histogramV3` preserves distinctness of keys. -/
theorem pass1_keys_nodup :
    ∀ (l : List CounterV3) (m m' : List (Bound × Nat)),
      (m.map Prod.fst).Nodup → histogramV3Pass1 l m = .ok m' →
      (m'.map Prod.fst).Nodup := by
  intro l
  induction l with
  | nil =>
    intro m m' hnd hok
    unfold histogramV3Pass1 at hok
    cases hok
    exact hnd
  | cons c l ih =>
    intro m m' hnd hok
    unfold histogramV3Pass1 at hok
    cases hpre : strHasPrefix c.name qryRTT with
    | false =>
      rw [if_neg (by simp [hpre])] at hok
      exact ih m m' hnd hok
    | true =>
      rw [if_pos hpre] at hok
      cases hb : rttBound c.name with
      | error er => rw [hb] at hok; exact absurd hok (by simp)
      | ok b =>
        rw [hb] at hok
        exact ih _ m' (upsertB_keys_nodup b c.counter m hnd) hok

/-- Map lookup is invariant under permutation of a map with distinct
keys. -/
theorem lookupB_perm {p p' : List (Bound × Nat)} (hp : p.Perm p')
    (hnd : (p.map Prod.fst).Nodup) : ∀ k, lookupB p k = lookupB p' k := by
  induction hp with
  | nil => intro k; rfl
  | cons x hp ih =>
    intro k
    rw [List.map_cons, List.nodup_cons] at hnd
    unfold lookupB
    rw [List.find?_cons, List.find?_cons]
    cases hxk : (decide (x.1 = k)) with
    | true => rfl
    | false =>
      have := ih hnd.2 k
      unfold lookupB at this
      rw [this]
  | swap x y l =>
    intro k
    rw [List.map_cons, List.map_cons, List.nodup_cons, List.nodup_cons] at hnd
    have hxy : y.1 ≠ x.1 := fun h => hnd.1 (by simp [h])
    unfold lookupB
    rw [List.find?_cons, List.find?_cons, List.find?_cons, List.find?_cons]
    by_cases hx : x.1 = k
    · rw [decide_eq_true hx, decide_eq_false (fun hy : y.1 = k => hxy (hy.trans hx.symm))]
    · rw [decide_eq_false hx]
  | trans h1 h2 ih1 ih2 =>
    intro k
    rw [ih1 hnd k, ih2 (((h1.map Prod.fst).nodup_iff).mp hnd) k]

/-- Function `runningPairs` keeps the keys. -/
theorem runningPairs_fst :
    ∀ (p : List (Bound × Nat)) (c : Nat),
      (runningPairs c p).1.map Prod.fst = p.map Prod.fst := by
  intro p
  induction p with
  | nil => intro c; rfl
  | cons x p ih =>
    intro c
    cases x with
    | mk b v => unfold runningPairs; rw [List.map_cons, List.map_cons, ih]

/-- Every cumulative value produced by `runningPairs` is at least the
starting count. -/
theorem runningPairs_snd_ge :
    ∀ (p : List (Bound × Nat)) (c : Nat),
      ∀ x ∈ (runningPairs c p).1.map Prod.snd, c ≤ x := by
  intro p
  induction p with
  | nil => intro c x hx; simp [runningPairs] at hx
  | cons q p ih =>
    intro c x hx
    cases q with
    | mk b v =>
      unfold runningPairs at hx
      rw [List.map_cons, List.mem_cons] at hx
      rcases hx with h | h
      · rw [h]; exact Nat.le_add_right c v
      · exact Nat.le_trans (Nat.le_add_right c v) (ih (c + v) x h)

/-- The cumulative values produced by `runningPairs` are non-decreasing. -/
theorem runningPairs_snd_mono :
    ∀ (p : List (Bound × Nat)) (c : Nat),
      ((runningPairs c p).1.map Prod.snd).Pairwise (· ≤ ·) := by
  intro p
  induction p with
  | nil => intro c; simp [runningPairs]
  | cons q p ih =>
    intro c
    cases q with
    | mk b v =>
      unfold runningPairs
      rw [List.map_cons, List.pairwise_cons]
      exact ⟨fun x hx => runningPairs_snd_ge p (c + v) x hx, ih (c + v)⟩

/-- Function `sortCumul` only depends on the bucket map up to permutation (with
distinct keys). -/
theorem sortCumul_perm {m m' : List (Bound × Nat)} (hp : m.Perm m')
    (hnd : (m.map Prod.fst).Nodup) : sortCumul m = sortCumul m' := by
  have hkeys : (m.map Prod.fst).Perm (m'.map Prod.fst) := hp.map Prod.fst
  have hsorted :
      (m.map Prod.fst).insertionSort Bound.le =
        (m'.map Prod.fst).insertionSort Bound.le := by
    exact @List.eq_of_perm_of_sorted Bound Bound.le _ _ _
      (((List.perm_insertionSort Bound.le (m.map Prod.fst)).trans
        hkeys).trans (List.perm_insertionSort Bound.le (m'.map Prod.fst)).symm)
      (List.sorted_insertionSort Bound.le (m.map Prod.fst))
      (List.sorted_insertionSort Bound.le (m'.map Prod.fst))
  unfold sortCumul
  rw [hsorted]
  congr 1
  exact List.map_congr_left (fun k _ => by rw [lookupB_perm hp hnd k])

/-- A successful `histogramV3` run factors through `sortCumul` of the
extracted pairs. -/
theorem histogramV3_eq_sortCumul (l : List CounterV3)
    (hall : l.all goodC = true)
    (hnd : ((l.filterMap extractPair).map Prod.fst).Nodup) :
    histogramV3 l = .ok (sortCumul (l.filterMap extractPair)) := by
  unfold histogramV3
  rw [pass1_ok_of_allGood l [] hall,
      foldl_upsertB_append (l.filterMap extractPair) [] (by simpa using hnd)]
  rfl

/-- C4 (amended): permuting the counter list passed to `histogramV3` leaves
the bucket map and the total count unchanged, provided the RTT-tagged
counters derive pairwise distinct bucket bounds. -/
theorem histogramV3_order_independent (l l' : List CounterV3)
    (hp : l.Perm l')
    (hnd : ((l.filterMap extractPair).map Prod.fst).Nodup)
    (r : List (Bound × Nat) × Nat) (h : histogramV3 l = .ok r) :
    histogramV3 l' = .ok r := by
  have hall : l.all goodC = true := by
    unfold histogramV3 at h
    cases hp1 : histogramV3Pass1 l [] with
    | error er => rw [hp1] at h; exact absurd h (by simp)
    | ok m => exact pass1_allGood_of_ok l [] m hp1
  have hall' : l'.all goodC = true := by
    rw [List.all_eq_true] at hall ⊢
    exact fun x hx => hall x (hp.mem_iff.mpr hx)
  have hperm : (l.filterMap extractPair).Perm (l'.filterMap extractPair) :=
    hp.filterMap extractPair
  have hnd' : ((l'.filterMap extractPair).map Prod.fst).Nodup :=
    ((hperm.map Prod.fst).nodup_iff).mp hnd
  rw [histogramV3_eq_sortCumul l hall hnd] at h
  rw [histogramV3_eq_sortCumul l' hall' hnd', ← sortCumul_perm hperm hnd]
  exact h

/-- C4 counterexample: the claim as stated fails when two distinct counter
names derive the same bucket bound — the first-pass map write is last-wins,
so swapping `QryRTT10 = 5` and `QryRTT010 = 7` (both bound 0.01s) changes
both the bucket map and the total count. -/
theorem histogramV3_order_dependent_counterexample :
    ([⟨"QryRTT10", 5⟩, ⟨"QryRTT010", 7⟩] : List CounterV3).Perm
      [⟨"QryRTT010", 7⟩, ⟨"QryRTT10", 5⟩] ∧
    histogramV3 [⟨"QryRTT10", 5⟩, ⟨"QryRTT010", 7⟩] =
      .ok ([(.fin (Rat.divInt 1 100), 7)], 7) ∧
    histogramV3 [⟨"QryRTT010", 7⟩, ⟨"QryRTT10", 5⟩] =
      .ok ([(.fin (Rat.divInt 1 100), 5)], 5) ∧
    histogramV3 [⟨"QryRTT10", 5⟩, ⟨"QryRTT010", 7⟩] ≠
      histogramV3 [⟨"QryRTT010", 7⟩, ⟨"QryRTT10", 5⟩] := by
  refine ⟨?_, by decide, by decide, by decide⟩
  decide

/-- C4 witness: a concrete permutation of a distinct-bound Gen3 counter
list yields the identical sorted cumulative histogram. -/
theorem histogramV3_order_independent_witness :
    histogramV3 [⟨"QryRTT100", 3⟩, ⟨"QryRTT10", 5⟩] =
      .ok ([(.fin (Rat.divInt 1 100), 5), (.fin (Rat.divInt 1 10), 8)], 8) :=
  histogramV3_order_independent
    [⟨"QryRTT10", 5⟩, ⟨"QryRTT100", 3⟩] [⟨"QryRTT100", 3⟩, ⟨"QryRTT10", 5⟩]
    (by decide) (by decide) _ (by decide)

/-- Nothing is strictly greater than `+Inf` in the bound order. -/
theorem not_inf_lt (b : Bound) : ¬ Bound.lt .inf b := by
  cases b with
  | fin q => exact fun h => h.1
  | inf => exact fun h => h.2 rfl

/-- In a strictly ascending bound list, `+Inf` can only sit last. -/
theorem pairwise_lt_dropLast_ne_inf :
    ∀ (ks : List Bound), ks.Pairwise Bound.lt →
      ∀ k ∈ ks.dropLast, k ≠ Bound.inf := by
  intro ks
  induction ks with
  | nil => intro _ k hk; simp at hk
  | cons a ks ih =>
    intro hpw k hk
    rw [List.pairwise_cons] at hpw
    cases ks with
    | nil => simp at hk
    | cons b ks' =>
      rw [show (a :: b :: ks').dropLast = a :: (b :: ks').dropLast from rfl,
        List.mem_cons] at hk
      rcases hk with h | h
      · subst h
        intro hinf
        subst hinf
        exact not_inf_lt b (hpw.1 b (by simp))
      · exact ih hpw.2 k h

/-- A sorted distinct bound list is strictly ascending. -/
theorem pairwise_lt_of_sorted_nodup (ks : List Bound)
    (hle : ks.Pairwise Bound.le) (hnd : ks.Nodup) :
    ks.Pairwise Bound.lt :=
  (hle.and hnd).imp (fun h => ⟨h.1, h.2⟩)

/-- The three bucket invariants of a `runningPairs` output over a strictly
ascending pair list. -/
theorem runningPairs_invariants (q : List (Bound × Nat)) (c : Nat)
    (hq : (q.map Prod.fst).Pairwise Bound.lt) :
    ((runningPairs c q).1.map Prod.fst).Pairwise Bound.lt ∧
    (∀ k ∈ ((runningPairs c q).1.map Prod.fst).dropLast, k ≠ Bound.inf) ∧
    ((runningPairs c q).1.map Prod.snd).Pairwise (· ≤ ·) := by
  rw [runningPairs_fst]
  exact ⟨hq, pairwise_lt_dropLast_ne_inf (q.map Prod.fst) hq,
    runningPairs_snd_mono q c⟩

/-- When every stat is good and the extracted keys are fresh, the Gen2
accumulation loop appends the running-sum pairs in input order. -/
theorem histogramV2Aux_eq :
    ∀ (l : List StatV2) (m : List (Bound × Nat)) (c : Nat),
      l.all goodS = true →
      ((m.map Prod.fst) ++ ((l.filterMap extractPairV2).map Prod.fst)).Nodup →
      histogramV2Aux l m c =
        .ok (m ++ (runningPairs c (l.filterMap extractPairV2)).1,
             (runningPairs c (l.filterMap extractPairV2)).2) := by
  intro l
  induction l with
  | nil => intro m c _ _; simp [histogramV2Aux, runningPairs]
  | cons s l ih =>
    intro m c hall hnd
    rw [List.all_cons, Bool.and_eq_true] at hall
    unfold histogramV2Aux
    rw [List.filterMap_cons] at hnd ⊢
    cases hpre : strHasPrefix s.name qryRTT with
    | false =>
      rw [if_neg (by simp [hpre])]
      have hnone : extractPairV2 s = none := by
        unfold extractPairV2; rw [if_neg (by simp [hpre])]
      rw [hnone] at hnd ⊢
      exact ih m c hall.2 hnd
    | true =>
      rw [if_pos rfl]
      have hg := hall.1
      unfold goodS at hg
      rw [hpre] at hg
      simp only [Bool.not_true, Bool.false_or] at hg
      cases hb : rttBound s.name with
      | error er => rw [hb] at hg; simp [Except.toOption] at hg
      | ok b =>
        have hsome : extractPairV2 s = some (b, s.counter) := by
          unfold extractPairV2
          rw [if_pos hpre, hb]
          rfl
        rw [hsome] at hnd ⊢
        dsimp only at hnd ⊢
        have hfresh : b ∉ m.map Prod.fst := by
          rw [List.map_cons, List.nodup_append] at hnd
          exact fun hmem => hnd.2.2 hmem (by simp)
        rw [upsertB_not_mem b (c + s.counter) m hfresh]
        have hnd' : (((m ++ [(b, c + s.counter)]).map Prod.fst) ++
            ((l.filterMap extractPairV2).map Prod.fst)).Nodup := by
          rw [List.map_append, List.append_assoc]
          simpa using hnd
        rw [ih (m ++ [(b, c + s.counter)]) (c + s.counter) hall.2 hnd']
        rw [List.append_assoc]
        rfl

/-- If the Gen2 accumulation loop succeeds, every stat was good. -/
theorem histogramV2Aux_ok_allGood :
    ∀ (l : List StatV2) (m : List (Bound × Nat)) (c : Nat)
      (r : List (Bound × Nat) × Nat),
      histogramV2Aux l m c = .ok r → l.all goodS = true := by
  intro l
  induction l with
  | nil => intro m c r _; rfl
  | cons s l ih =>
    intro m c r hok
    unfold histogramV2Aux at hok
    rw [List.all_cons, Bool.and_eq_true]
    cases hpre : strHasPrefix s.name qryRTT with
    | false =>
      rw [if_neg (by simp [hpre])] at hok
      exact ⟨by unfold goodS; rw [hpre]; rfl, ih m c r hok⟩
    | true =>
      rw [if_pos hpre] at hok
      cases hb : rttBound s.name with
      | error er => rw [hb] at hok; exact absurd hok (by simp)
      | ok b =>
        rw [hb] at hok
        refine ⟨?_, ih _ _ r hok⟩
        unfold goodS
        rw [hpre, hb]
        rfl

/-- C5 (amended): every successfully built Gen3 histogram has strictly
ascending bucket bounds with `+Inf` only in last position and
non-decreasing cumulative counts; a Gen2 histogram has the same properties
whenever its RTT counters appear in strictly ascending bound order in the
input (the schema declaration order) — `histogramV2` alone does not sort,
so the restriction is necessary. -/
theorem histogram_bucket_invariants :
    (∀ (l : List CounterV3) (m : List (Bound × Nat)) (c : Nat),
      histogramV3 l = .ok (m, c) →
      (m.map Prod.fst).Pairwise Bound.lt ∧
      (∀ k ∈ (m.map Prod.fst).dropLast, k ≠ Bound.inf) ∧
      (m.map Prod.snd).Pairwise (· ≤ ·)) ∧
    (∀ (l : List StatV2) (m : List (Bound × Nat)) (c : Nat),
      ((l.filterMap extractPairV2).map Prod.fst).Pairwise Bound.lt →
      histogramV2 l = .ok (m, c) →
      (m.map Prod.fst).Pairwise Bound.lt ∧
      (∀ k ∈ (m.map Prod.fst).dropLast, k ≠ Bound.inf) ∧
      (m.map Prod.snd).Pairwise (· ≤ ·)) := by
  constructor
  · intro l m c h
    unfold histogramV3 at h
    cases hp1 : histogramV3Pass1 l [] with
    | error er => rw [hp1] at h; exact absurd h (by simp)
    | ok m0 =>
      rw [hp1] at h
      simp only [Except.ok.injEq] at h
      rw [Prod.ext_iff] at h
      obtain ⟨hm, hc⟩ := h
      have hnd0 : (m0.map Prod.fst).Nodup :=
        pass1_keys_nodup l [] m0 (by simp) hp1
      have hnds : ((m0.map Prod.fst).insertionSort Bound.le).Nodup :=
        ((List.perm_insertionSort Bound.le (m0.map Prod.fst)).nodup_iff).mpr hnd0
      have hlt : ((m0.map Prod.fst).insertionSort Bound.le).Pairwise Bound.lt :=
        pairwise_lt_of_sorted_nodup _
          (List.sorted_insertionSort Bound.le (m0.map Prod.fst)) hnds
      have hq : ((((m0.map Prod.fst).insertionSort Bound.le).map
          (fun k => (k, lookupB m0 k))).map Prod.fst).Pairwise Bound.lt := by
        rw [List.map_map,
          show (Prod.fst ∘ fun k => (k, lookupB m0 k)) = id from rfl,
          List.map_id]
        exact hlt
      subst hm
      exact runningPairs_invariants _ 0 hq
  · intro l m c hsorted h
    unfold histogramV2 at h
    have hall := histogramV2Aux_ok_allGood l [] 0 (m, c) h
    have hnd : ((l.filterMap extractPairV2).map Prod.fst).Nodup :=
      hsorted.imp (fun hab => hab.2)
    rw [histogramV2Aux_eq l [] 0 hall (by simpa using hnd)] at h
    simp only [Except.ok.injEq, List.nil_append] at h
    rw [Prod.ext_iff] at h
    obtain ⟨hm, hc⟩ := h
    subst hm
    exact runningPairs_invariants _ 0 hsorted

/-- C5 counterexample: the claim as stated fails for Gen2 with RTT counters
out of declaration order — `histogramV2 [(QryRTT100,3),(QryRTT10,5)]`
succeeds, yet the cumulative count at bound 0.01s (8) exceeds the one at
the larger bound 0.1s (3). -/
theorem histogramV2_unsorted_counterexample :
    histogramV2 [⟨"QryRTT100", 3⟩, ⟨"QryRTT10", 5⟩] =
      .ok ([(.fin (Rat.divInt 1 10), 3), (.fin (Rat.divInt 1 100), 8)], 8) ∧
    Bound.lt (.fin (Rat.divInt 1 100)) (.fin (Rat.divInt 1 10)) ∧
    lookupB [(.fin (Rat.divInt 1 10), 3), (.fin (Rat.divInt 1 100), 8)]
      (.fin (Rat.divInt 1 100)) = 8 ∧
    lookupB [(.fin (Rat.divInt 1 10), 3), (.fin (Rat.divInt 1 100), 8)]
      (.fin (Rat.divInt 1 10)) = 3 ∧
    ¬ (8 : Nat) ≤ 3 := by
  decide

/-- C5 witness: concrete strictly-ascending bucket lists with
non-decreasing counts, from a shuffled Gen3 input and a
declaration-ordered Gen2 input. -/
theorem histogram_bucket_invariants_witness :
    ((([(Bound.fin (Rat.divInt 1 100), 5), (Bound.fin (Rat.divInt 1 10), 8)]
        : List (Bound × Nat)).map Prod.fst).Pairwise Bound.lt ∧
     (([(Bound.fin (Rat.divInt 1 100), 5), (Bound.fin (Rat.divInt 1 10), 8)]
        : List (Bound × Nat)).map Prod.snd).Pairwise (· ≤ ·)) ∧
    ((([(Bound.fin (Rat.divInt 1 100), 5), (Bound.inf, 7)]
        : List (Bound × Nat)).map Prod.fst).Pairwise Bound.lt ∧
     (([(Bound.fin (Rat.divInt 1 100), 5), (Bound.inf, 7)]
        : List (Bound × Nat)).map Prod.snd).Pairwise (· ≤ ·)) :=
  ⟨⟨(histogram_bucket_invariants.1 [⟨"QryRTT100", 3⟩, ⟨"QryRTT10", 5⟩] _ 8
      (by decide)).1,
    (histogram_bucket_invariants.1 [⟨"QryRTT100", 3⟩, ⟨"QryRTT10", 5⟩] _ 8
      (by decide)).2.2⟩,
   ⟨(histogram_bucket_invariants.2 [⟨"QryRTT10", 5⟩, ⟨"QryRTT1600+", 2⟩] _ 7
      (by decide) (by decide)).1,
    (histogram_bucket_invariants.2 [⟨"QryRTT10", 5⟩, ⟨"QryRTT1600+", 2⟩] _ 7
      (by decide) (by decide)).2.2⟩⟩

end BindExporter
